import Mathlib

/-!
Shallow embedding of `process_management.py` (OS lab: fork/exec/wait/proc/nice
demonstrations).  OS-level nondeterminism is made explicit:

* `fresh : Nat → Nat` gives the PID the OS assigns to the i-th `fork` of a task;
* `sched : List Nat` drives which terminated child each `os.wait()` call
  delivers (an index into the current set of unreaped children).

Pure Python computations (shlex.split, the busy-work loop, /proc formatting)
are translated directly; `os.wait` becomes `osWaitPick`, whose `none` result
models the `ChildProcessError` raised when the caller has no children left.
-/

namespace ProcessManagement

/-- One `os.wait()` call by a process whose unreaped children are `live`:
if there are none, `ChildProcessError` is raised (`none`); otherwise the OS
delivers some child — chosen here by the schedule index `i` — and removes it
from the child table. -/
def osWaitPick (i : Nat) (live : List Nat) : Option (Nat × List Nat) :=
  match live with
  | [] => none
  | _ :: _ =>
    some (live.getD (i % live.length) 0, live.eraseIdx (i % live.length))

/-- The `while True: os.wait() ... except ChildProcessError: break` reap loop of
tasks 2 and 5: collect delivered children until the child table is empty, at
which point the raised `ChildProcessError` is caught and the loop ends
normally (the `[]` case). Returns the PIDs in reap order. -/
def reapAll (sched : List Nat) (live : List Nat) : List Nat :=
  match live with
  | [] => []
  | c :: cs =>
    let i := sched.headD 0 % (c :: cs).length
    (c :: cs).getD i 0 :: reapAll sched.tail ((c :: cs).eraseIdx i)
termination_by live.length
decreasing_by
  rename_i c cs
  have hlt : sched.headD 0 % (c :: cs).length < (c :: cs).length :=
    Nat.mod_lt _ (by simp)
  rw [List.length_eraseIdx, if_pos hlt]
  simp only [List.length_cons]
  omega

/-- The bounded reap loop of task 1 (`for _ in children: os.wait()`): performs
exactly `count` wait calls; `none` models an uncaught `ChildProcessError`
(impossible when `count` children exist).  Returns (reap order, remaining
unreaped children). -/
def reapFor (sched : List Nat) : Nat → List Nat → Option (List Nat × List Nat)
  | 0, live => some ([], live)
  | k + 1, live =>
    match osWaitPick (sched.headD 0) live with
    | none => none
    | some (p, rest) =>
      (reapFor sched.tail k rest).map (fun pr => (p :: pr.1, pr.2))

theorem getD_cons_eraseIdx_perm :
    ∀ (l : List Nat) (i : Nat), i < l.length →
      (l.getD i 0 :: l.eraseIdx i).Perm l := by
  intro l
  induction l with
  | nil => intro i h; simp at h
  | cons a t ih =>
    intro i h
    cases i with
    | zero => simp [List.eraseIdx]
    | succ j =>
      simp only [List.getD_cons_succ, List.eraseIdx_cons_succ]
      have hj : j < t.length := by simpa using h
      exact (List.Perm.swap a (t.getD j 0) _).trans ((ih j hj).cons a)

theorem osWaitPick_some {i : Nat} {live : List Nat} {p : Nat} {rest : List Nat}
    (h : osWaitPick i live = some (p, rest)) :
    (p :: rest).Perm live := by
  match live with
  | [] => simp [osWaitPick] at h
  | c :: cs =>
    simp only [osWaitPick, Option.some.injEq, Prod.mk.injEq] at h
    obtain ⟨hp, hr⟩ := h
    subst hp; subst hr
    exact getD_cons_eraseIdx_perm _ _ (Nat.mod_lt _ (by simp))

/-- The unbounded reap loop always empties the child table, collecting each
child exactly once: its result is a permutation of the live child list. -/
theorem reapAll_perm (sched live : List Nat) : (reapAll sched live).Perm live := by
  have main : ∀ n (live : List Nat), live.length ≤ n → ∀ sched,
      (reapAll sched live).Perm live := by
    intro n
    induction n with
    | zero =>
      intro live h sched
      have : live = [] := List.length_eq_zero.mp (Nat.le_zero.mp h)
      subst this; simp [reapAll]
    | succ n ih =>
      intro live h sched
      match live with
      | [] => simp [reapAll]
      | c :: cs =>
        rw [reapAll]
        have hlt : sched.headD 0 % (c :: cs).length < (c :: cs).length :=
          Nat.mod_lt _ (by simp)
        have hperm := getD_cons_eraseIdx_perm (c :: cs) _ hlt
        have hlen : ((c :: cs).eraseIdx (sched.headD 0 % (c :: cs).length)).length ≤ n := by
          simp only [List.length_eraseIdx, hlt, if_pos]
          simp only [List.length_cons] at h ⊢
          omega
        exact ((ih _ hlen sched.tail).cons _).trans hperm
  exact main live.length live le_rfl sched

/-- The bounded reap loop of task 1 succeeds when asked to reap exactly as many
children as exist, empties the child table, and its reap order is a
permutation of the children. -/
theorem reapFor_length :
    ∀ (k : Nat) (live sched : List Nat), live.length = k →
      ∃ r, reapFor sched k live = some (r, []) ∧ r.Perm live := by
  intro k
  induction k with
  | zero =>
    intro live sched h
    have : live = [] := List.length_eq_zero.mp h
    subst this
    exact ⟨[], rfl, List.Perm.refl _⟩
  | succ k ih =>
    intro live sched h
    match live with
    | [] => simp at h
    | c :: cs =>
      have hlt : sched.headD 0 % (c :: cs).length < (c :: cs).length :=
        Nat.mod_lt _ (by simp)
      have hpick : osWaitPick (sched.headD 0) (c :: cs) =
          some ((c :: cs).getD (sched.headD 0 % (c :: cs).length) 0,
            (c :: cs).eraseIdx (sched.headD 0 % (c :: cs).length)) := by
        simp [osWaitPick]
      have hlen : ((c :: cs).eraseIdx (sched.headD 0 % (c :: cs).length)).length = k := by
        rw [List.length_eraseIdx, if_pos hlt]
        simp only [List.length_cons] at h ⊢
        omega
      obtain ⟨r, hr, hperm⟩ := ih _ sched.tail hlen
      refine ⟨(c :: cs).getD (sched.headD 0 % (c :: cs).length) 0 :: r, ?_, ?_⟩
      · simp only [reapFor, hpick, hr, Option.map_some']
      · exact (hperm.cons _).trans (getD_cons_eraseIdx_perm _ _ hlt)

/-! ## Task 1: create N children and wait (`task1_create_children`) -/

def task1Header (n : Nat) : String :=
  "[Task 1] Parent PID: <parent>, creating " ++ toString n ++ " children"

def task1SpawnMsg (pid : Nat) : String :=
  "[Parent] spawned child PID=" ++ toString pid

def task1WaitMsg (pid : Nat) : String :=
  "[Parent] wait() returned pid=" ++ toString pid

def task1DoneMsg : String := "[Task 1] All children reaped."

/-- `task1_create_children(n)`: fork `n` children (the i-th fork yields PID
`fresh i`, recorded in creation order), then wait once per recorded child.
Returns (spawned PIDs, reap order, parent output); `none` models an uncaught
`ChildProcessError` in the bounded wait loop. -/
def task1_run (fresh : Nat → Nat) (sched : List Nat) (n : Nat) :
    Option (List Nat × List Nat × List String) :=
  let children := (List.range n).map fresh
  match reapFor sched n children with
  | none => none
  | some (reaped, _) =>
    some (children, reaped,
      task1Header n :: children.map task1SpawnMsg ++
        reaped.map task1WaitMsg ++ [task1DoneMsg])

/-! ## shlex.split (POSIX mode, as used by `shlex.split(cmd)` in task 2)

Faithful translation of CPython's `shlex.read_token` state machine for the
configuration `shlex.split` uses: `posix=True`, `whitespace_split=True`,
`commenters=''`, `whitespace=' \t\r\n'`, `quotes='\x27"'`, `escape='\\'`,
`escapedquotes='"'`.  The whole-input lexing loop is a single recursion over
the character list; emitting a token corresponds to `read_token` returning and
`split` consing the result.  `none` models the `ValueError` raised on an
unclosed quotation or a trailing escape character. -/

def isWS (c : Char) : Bool :=
  c == ' ' || c == '\t' || c == '\r' || c == '\n'

def isQuoteCh (c : Char) : Bool := c == '\'' || c == '"'

/-- Lexer state: `ws` is shlex's `' '` state, `word` its `'a'` state,
`quote q` means inside a `q`-quoted section, `esc back` means the previous
character was an unprocessed `\` (`back = none` for `escapedstate = 'a'`,
`back = some q` when escaping inside a double-quoted section). -/
inductive SState where
  | ws
  | word
  | quote (q : Char)
  | esc (back : Option Char)

/-- One full pass of the shlex lexing loop.  `tok` is the current token's
characters in reverse; `quoted` is shlex's per-token `quoted` flag (a quoted
empty token is still emitted). -/
def lexRun : List Char → SState → List Char → Bool → Option (List String)
  | [], st, tok, quoted =>
    match st with
    | .quote _ => none
    | .esc _ => none
    | _ => some (if tok.isEmpty && !quoted then [] else [String.mk tok.reverse])
  | c :: cs, .ws, tok, quoted =>
    if isWS c then
      if !tok.isEmpty || quoted then
        (lexRun cs .ws [] false).map (String.mk tok.reverse :: ·)
      else lexRun cs .ws tok quoted
    else if c == '\\' then lexRun cs (.esc none) tok quoted
    else if isQuoteCh c then lexRun cs (.quote c) tok quoted
    else lexRun cs .word (c :: tok) quoted
  | c :: cs, .word, tok, quoted =>
    if isWS c then
      if !tok.isEmpty || quoted then
        (lexRun cs .ws [] false).map (String.mk tok.reverse :: ·)
      else lexRun cs .ws [] false
    else if isQuoteCh c then lexRun cs (.quote c) tok quoted
    else if c == '\\' then lexRun cs (.esc none) tok quoted
    else lexRun cs .word (c :: tok) quoted
  | c :: cs, .quote q, tok, _ =>
    if c == q then lexRun cs .word tok true
    else if c == '\\' && q == '"' then lexRun cs (.esc (some q)) tok true
    else lexRun cs (.quote q) (c :: tok) true
  | c :: cs, .esc back, tok, quoted =>
    match back with
    | none => lexRun cs .word (c :: tok) quoted
    | some q =>
      lexRun cs (.quote q)
        (if c != '\\' && c != q then c :: '\\' :: tok else c :: tok) quoted

/-- `shlex.split(s)` (line 46 of the source: `argv = shlex.split(cmd)`). -/
def shlexSplit (s : String) : Option (List String) :=
  lexRun s.data .ws [] false

/-! ## Task 2: exec / run commands from children (`task2_exec_children`) -/

def execFailMsg (i : Nat) (prog : String) : String :=
  "[Child " ++ toString (i + 1) ++ "] exec failed: " ++ prog ++ " not found"

/-- Outcome of the `use_exec` branch run in the i-th child process:
`replaced` = `os.execvp` succeeded and the process image was replaced (none of
the child's original code runs again); `exitFail code diag` = `execvp` raised
`FileNotFoundError`, the child printed `diag` and called `os._exit(code)`;
`indexError` = `argv` was empty and `argv[0]` raised an unhandled exception. -/
inductive Task2ChildOutcome where
  | replaced
  | exitFail (code : Nat) (diag : String)
  | indexError
deriving DecidableEq

/-- The i-th task 2 child's behavior, parameterized by `locate`: whether
`execvp` can find the named program on the PATH. -/
def task2_child (locate : String → Bool) (i : Nat) (argv : List String) :
    Task2ChildOutcome :=
  match argv with
  | [] => .indexError
  | a0 :: _ => if locate a0 then .replaced else .exitFail 1 (execFailMsg i a0)

def task2Header (argv : List String) : String :=
  "[Task 2] Parent PID=<parent>, running children each executing: " ++ toString argv

def task2SpawnMsg (pid : Nat) : String :=
  "[Parent] spawned child PID=" ++ toString pid ++ " for command"

def task2WaitedMsg (pid : Nat) : String :=
  "[Parent] waited pid=" ++ toString pid

def task2DoneMsg : String := "[Task 2] All children finished."

/-- Parent side of `task2_exec_children(n, cmd, use_exec=True)`: split the
command, fork `n` children, then reap in a `while True / except
ChildProcessError: break` loop.  `none` models the `ValueError` that
`shlex.split` raises on malformed input (before any fork).  Returns (spawned
PIDs, reap order, parent output). -/
def task2_run (fresh : Nat → Nat) (sched : List Nat) (n : Nat) (cmd : String) :
    Option (List Nat × List Nat × List String) :=
  (shlexSplit cmd).map fun argv =>
    let children := (List.range n).map fresh
    let reaped := reapAll sched children
    (children, reaped,
      task2Header argv :: children.map task2SpawnMsg ++
        reaped.map task2WaitedMsg ++ [task2DoneMsg])

/-! ## Task 4: inspect /proc/[pid] (`task4_inspect`) -/

/-- The introspection filesystem as the inspector sees it.  Each field models
one OS read; `Except.error e` models the exception (with text `e`) the
corresponding Python call can raise.  `fdList` pairs each entry name of
`/proc/pid/fd` with the result of `os.readlink` on it. -/
structure ProcFS where
  existsDir : Int → Bool
  statusLines : Int → Except String (List String)
  exeLink : Int → Except String String
  fdList : Int → Except String (List (String × Except String String))

def inspectHeader (pid : Int) : String :=
  "[Task 4] Inspecting PID " ++ toString pid

def procNotFoundMsg (pid : Int) : String :=
  "[Task 4] /proc/" ++ toString pid ++
    " does not exist. Process may not be running or you lack permission."

def statusHeaderLine : String := "\n-- status --"

/-- The allow-list filter of the status read (line 127 of the source). -/
def statusKeep (line : String) : Bool :=
  line.startsWith "Name:" || line.startsWith "State:" || line.startsWith "VmRSS:" ||
    line.startsWith "VmSize:" || line.startsWith "Threads:"

/-- Output of the status sub-read (its own try/except block). -/
def statusSection (st : Except String (List String)) : List String :=
  statusHeaderLine ::
    match st with
    | .ok lines => (lines.filter statusKeep).map (·.trim)
    | .error e => ["Error reading status: " ++ e]

/-- Output of the executable-link sub-read (its own try/except block). -/
def exeSection : Except String String → List String
  | .ok t => ["\n-- exe -> " ++ t]
  | .error e => ["\n-- exe not readable: " ++ e]

/-- How one descriptor entry is printed: each entry's `readlink` has its own
inner try/except, so one unreadable entry cannot abort the enumeration. -/
def fdLine (f : String × Except String String) : String :=
  match f.2 with
  | .ok t => f.1 ++ " -> " ++ t
  | .error e => f.1 ++ " -> (unreadable) " ++ e

/-- Output of the descriptor-enumeration sub-read (its own try/except block). -/
def fdSection : Except String (List (String × Except String String)) → List String
  | .error e => ["\n-- fd not accessible: " ++ e]
  | .ok fds =>
    ("\n-- " ++ toString fds.length ++ " open file descriptors:") :: fds.map fdLine

/-- `task4_inspect(pid)`: header print, early return when `/proc/pid` does not
exist, otherwise the three independently-guarded sub-reads in sequence.  The
function only reads; it never writes any state. -/
def task4_inspect (fs : ProcFS) (pid : Int) : List String :=
  inspectHeader pid ::
    if fs.existsDir pid = false then [procNotFoundMsg pid]
    else
      (statusHeaderLine ::
        match fs.statusLines pid with
        | .ok lines => (lines.filter statusKeep).map (·.trim)
        | .error e => ["Error reading status: " ++ e]) ++
      (match fs.exeLink pid with
        | .ok t => ["\n-- exe -> " ++ t]
        | .error e => ["\n-- exe not readable: " ++ e]) ++
      (match fs.fdList pid with
        | .error e => ["\n-- fd not accessible: " ++ e]
        | .ok fds =>
          ("\n-- " ++ toString fds.length ++ " open file descriptors:") ::
            fds.map fdLine)

/-- Two successive invocations of the inspector on the same PID.  The inspector
performs no writes, so the second invocation observes the same filesystem. -/
def task4_inspectTwice (fs : ProcFS) (pid : Int) : List String × List String :=
  let first := task4_inspect fs pid
  let second := task4_inspect fs pid
  (first, second)

/-! ## Task 5: prioritization via os.nice() (`task5_priority`) -/

/-- `nicelist = [0, 5, 10, 15, 19]` (line 153 of the source). -/
def niceBase : List Nat := [0, 5, 10, 15, 19]

/-- The CPU-bound busy work each task 5 child performs (lines 166-168):
`s = 0; for k in range(iterations): s += (k & 1)`. -/
def busyWork (iterations : Nat) : Nat :=
  (List.range iterations).foldl (fun s k => s + (k &&& 1)) 0

/-- The result a task 5 child prints.  The child first attempts
`os.nice(niceval)` (any failure silently swallowed) and then runs the busy
loop, whose result does not depend on the nice value. -/
def task5_childResult (niceval : Nat) (iterations : Nat) : Nat :=
  busyWork iterations

structure Task5Result where
  assignments : List (Nat × Nat)
  children : List Nat
  order : List Nat
  output : List String

def task5Header (n : Nat) : String :=
  "[Task 5] Spawning " ++ toString n ++ " CPU-bound children with different nice values."

def task5SpawnMsg (pid : Nat) (niceval : Nat) : String :=
  "[Parent] spawned child " ++ toString pid ++ " with target nice=" ++ toString niceval

def task5FinishMsg (pid : Nat) : String :=
  "[Parent] Child finished: pid=" ++ toString pid

def task5OrderMsg (order : List Nat) : String :=
  "[Task 5] Finish order (PIDs): " ++ toString order

/-- `task5_priority(n_children, iterations)`: truncate the nice list to
`n_children`, fork one child per entry (recording PIDs in creation order),
then reap in a `while True / except ChildProcessError: pass` loop, recording
finish order. -/
def task5_run (fresh : Nat → Nat) (sched : List Nat) (nChildren : Nat)
    (iterations : Nat) : Task5Result :=
  let nicelist := niceBase.take nChildren
  let children := (List.range nicelist.length).map fresh
  let order := reapAll sched children
  { assignments := children.zip nicelist
    children := children
    order := order
    output :=
      task5Header nChildren ::
        (children.zip nicelist).map (fun a => task5SpawnMsg a.1 a.2) ++
        order.map task5FinishMsg ++ [task5OrderMsg order] }

/-! ## Task 3 demonstrators (parent-visible output only) -/

def task3z_out (defunct : List String) (childPid : Nat) : List String :=
  ["[Task 3 - zombie] Starting demo",
   "[Parent] NOT calling wait() yet. Checking for defunct processes..."] ++
  (if defunct ≠ [] then "[Parent] Found defunct lines (zombie):" :: defunct
   else ["[Parent] No defunct lines found (timing may vary)."]) ++
  ["[Parent] After wait(): " ++ toString childPid,
   "[Task 3 - zombie] Demo complete."]

def task3o_out (childPid : Nat) : List String :=
  ["[Task 3 - orphan] Demo: parent will exit immediately; child will continue.",
   "[Parent] exiting immediately. Child PID=" ++ toString childPid]

/-! ## Dispatcher (`main`) -/

/-- Parsed command-line arguments (argparse defaults: n=3, cmd="ls -l",
iterations=2000000; pid is optional). -/
structure Args where
  task : String
  n : Nat
  cmd : String
  pid : Option Int
  iterations : Nat

/-- Python truthiness of `args.pid` as tested by `if not args.pid:` on line
204: `None` and `0` are both falsy. -/
def pidTruthy : Option Int → Bool
  | none => false
  | some p => !(p == 0)

def linuxWarnMsg : String :=
  "WARNING: This script requires Linux (os.fork and /proc). Exiting."

def pidUsageMsg : String := "Please provide --pid <pid> for task 4"

/-- The OS-supplied nondeterminism a run of the program observes. -/
structure Env where
  isLinux : Bool
  fresh : Nat → Nat
  sched : List Nat
  fs : ProcFS
  defunct : List String

/-- `main()`: the platform guard, then dispatch on `--task`.  Result is
(process exit code, parent output).  Exit code 0 models falling off the end of
`main` (or `os._exit(0)` in task 3o's parent); the `none` arms model a crash
from an unhandled exception, which exits with a nonzero status. -/
def mainRun (env : Env) (args : Args) : Nat × List String :=
  if env.isLinux = false then (1, [linuxWarnMsg])
  else if args.task = "1" then
    match task1_run env.fresh env.sched args.n with
    | some (_, _, out) => (0, out)
    | none => (1, [])
  else if args.task = "2" then
    match task2_run env.fresh env.sched args.n args.cmd with
    | some (_, _, out) => (0, out)
    | none => (1, [])
  else if args.task = "3z" then (0, task3z_out env.defunct (env.fresh 0))
  else if args.task = "3o" then (0, task3o_out (env.fresh 0))
  else if args.task = "4" then
    if pidTruthy args.pid = false then (1, [pidUsageMsg])
    else (0, task4_inspect env.fs (args.pid.getD 0))
  else if args.task = "5" then
    (0, (task5_run env.fresh env.sched args.n args.iterations).output)
  else (0, ["Unknown task"])

/-! ## Supporting lemmas -/

theorem busyWork_eq (n : Nat) : busyWork n = n / 2 := by
  induction n with
  | zero => rfl
  | succ n ih =>
    unfold busyWork at ih ⊢
    rw [List.range_succ, List.foldl_append, List.foldl_cons, List.foldl_nil, ih,
      Nat.and_one_is_mod]
    omega

/-! ## Shell-style command renderings (for the task 2 parsing claim)

A command line built from whitespace-separated segments, each either a plain
word (no whitespace, quote, or escape characters) or a single-quoted segment
(which may contain whitespace).  Splitting such a rendering must return one
token per segment, with the quoted segment's characters kept verbatim. -/

/-- A character with no special meaning to the lexer. -/
def ordChar (c : Char) : Bool := !isWS c && !isQuoteCh c && c != '\\'

inductive ShTok where
  | plain (w : List Char)
  | squoted (w : List Char)

/-- The token text the shell-style split must produce for this segment. -/
def ShTok.content : ShTok → List Char
  | .plain w => w
  | .squoted w => w

/-- How the segment appears in the command string. -/
def ShTok.renderChars : ShTok → List Char
  | .plain w => w
  | .squoted w => '\'' :: w ++ ['\'']

/-- Whether consuming this segment leaves the lexer's `quoted` flag set. -/
def ShTok.qflag : ShTok → Bool
  | .plain _ => false
  | .squoted _ => true

/-- Well-formedness: a plain word is nonempty with only ordinary characters; a
single-quoted segment contains no single quote. -/
def ShTok.okb : ShTok → Bool
  | .plain w => !w.isEmpty && w.all ordChar
  | .squoted w => w.all (fun c => c != '\'')

/-- The whole command line: segments joined by single spaces. -/
def renderCmd : List ShTok → List Char
  | [] => []
  | [t] => t.renderChars
  | t :: t2 :: ts => t.renderChars ++ ' ' :: renderCmd (t2 :: ts)

theorem lexRun_word_plain :
    ∀ (w rest tok : List Char) (q : Bool), (∀ c ∈ w, ordChar c = true) →
      lexRun (w ++ rest) .word tok q = lexRun rest .word (w.reverse ++ tok) q := by
  intro w
  induction w with
  | nil => intro rest tok q _; simp
  | cons c w ih =>
    intro rest tok q hw
    have hc := hw c (by simp)
    simp only [ordChar, Bool.and_eq_true, Bool.not_eq_true', bne_iff_ne, ne_eq] at hc
    obtain ⟨⟨hc1, hc2⟩, hc3⟩ := hc
    have hc3' : (c == '\\') = false := by simpa using hc3
    simp only [List.cons_append, lexRun, List.append_eq, hc1, hc2, hc3',
      Bool.false_eq_true, if_false]
    rw [ih rest (c :: tok) q (fun d hd => hw d (by simp [hd]))]
    simp

theorem lexRun_quote_squoted :
    ∀ (w rest tok : List Char) (q0 : Bool), (∀ c ∈ w, c ≠ '\'') →
      lexRun (w ++ '\'' :: rest) (.quote '\'') tok q0 =
        lexRun rest .word (w.reverse ++ tok) true := by
  intro w
  induction w with
  | nil => intro rest tok q0 _; simp [lexRun]
  | cons c w ih =>
    intro rest tok q0 hw
    have hc : (c == '\'') = false := by
      simpa using hw c (by simp)
    have hq : ('\'' == '"') = false := by decide
    simp only [List.cons_append, lexRun, List.append_eq, hc, hq, Bool.and_false,
      Bool.false_eq_true, if_false]
    rw [ih rest (c :: tok) true (fun d hd => hw d (by simp [hd]))]
    simp

theorem lexRun_ws_skip :
    ∀ (pre rest : List Char), (∀ c ∈ pre, isWS c = true) →
      lexRun (pre ++ rest) .ws [] false = lexRun rest .ws [] false := by
  intro pre
  induction pre with
  | nil => intro rest _; simp
  | cons c pre ih =>
    intro rest hp
    have hc : isWS c = true := hp c (by simp)
    simp only [List.cons_append, lexRun, List.append_eq, hc, if_true,
      List.isEmpty_nil, Bool.not_true, Bool.or_false, Bool.false_eq_true, if_false]
    exact ih rest (fun d hd => hp d (by simp [hd]))

theorem lexRun_tok_start (t : ShTok) (rest : List Char) (h : t.okb = true) :
    lexRun (t.renderChars ++ rest) .ws [] false =
      lexRun rest .word t.content.reverse t.qflag := by
  match t with
  | .plain w =>
    simp only [ShTok.okb, Bool.and_eq_true, List.all_eq_true] at h
    obtain ⟨hne, hall⟩ := h
    cases w with
    | nil => simp at hne
    | cons c w =>
      have hc := hall c (by simp)
      simp only [ordChar, Bool.and_eq_true, Bool.not_eq_true', bne_iff_ne, ne_eq] at hc
      obtain ⟨⟨hc1, hc2⟩, hc3⟩ := hc
      have hc3' : (c == '\\') = false := by simpa using hc3
      simp only [ShTok.renderChars, ShTok.content, ShTok.qflag, List.cons_append,
        lexRun, List.append_eq, hc1, hc2, hc3', Bool.false_eq_true, if_false]
      rw [lexRun_word_plain w rest [c] false (fun d hd => hall d (by simp [hd]))]
      simp
  | .squoted w =>
    simp only [ShTok.okb, List.all_eq_true, bne_iff_ne, ne_eq] at h
    have hq : isQuoteCh '\'' = true := by decide
    have hw : isWS '\'' = false := by decide
    have hb : ('\'' == '\\') = false := by decide
    simp only [ShTok.renderChars, ShTok.content, ShTok.qflag, List.cons_append,
      lexRun, List.append_eq, hq, hw, hb, Bool.false_eq_true, if_false, if_true]
    rw [show (w ++ ['\'']) ++ rest = w ++ '\'' :: rest by simp]
    rw [lexRun_quote_squoted w rest [] false h]
    simp

theorem lexRun_tok_emit (t : ShTok) (h : t.okb = true) :
    (!(t.content.reverse.isEmpty) || t.qflag) = true := by
  match t with
  | .plain w =>
    simp only [ShTok.okb, Bool.and_eq_true] at h
    obtain ⟨hne, _⟩ := h
    cases w with
    | nil => simp at hne
    | cons c w => simp [ShTok.content, ShTok.qflag]
  | .squoted _ => simp [ShTok.content, ShTok.qflag]

theorem renderCmd_lex :
    ∀ (ts : List ShTok), (∀ t ∈ ts, t.okb = true) →
      lexRun (renderCmd ts) .ws [] false =
        some (ts.map fun t => String.mk t.content) := by
  intro ts
  induction ts with
  | nil => intro _; simp [renderCmd, lexRun]
  | cons t ts ih =>
    intro hok
    have ht := hok t (by simp)
    have hemit := lexRun_tok_emit t ht
    have hcond : (t.content.reverse.isEmpty && !t.qflag) = false := by
      cases hie : t.content.reverse.isEmpty
      · simp
      · rw [hie] at hemit
        simp only [Bool.not_true, Bool.false_or] at hemit
        simp [hemit]
    cases ts with
    | nil =>
      rw [show renderCmd [t] = t.renderChars ++ [] by simp [renderCmd]]
      rw [lexRun_tok_start t [] ht]
      simp only [lexRun, hcond, Bool.false_eq_true, if_false, List.map_cons,
        List.map_nil, List.reverse_reverse]
    | cons t2 ts2 =>
      rw [renderCmd]
      rw [lexRun_tok_start t (' ' :: renderCmd (t2 :: ts2)) ht]
      have hws : isWS ' ' = true := by decide
      simp only [lexRun, hws, if_true, hemit]
      rw [ih (fun u hu => hok u (by simp [hu]))]
      simp

/-! ## Claim theorems -/

/-- Claim C1: for every N ≥ 0, task 1 spawns exactly N children, the parent's
reap loop collects exactly N exit statuses before terminating, and the set of
reaped PIDs equals the set of spawned PIDs; for N = 0 no children are spawned
and the reap loop exits immediately (the run is a no-op emitting only the
header and completion messages). -/
theorem task1_spawn_reap_exact (fresh : Nat → Nat) (sched : List Nat) (n : Nat) :
    ∃ reaped out,
      task1_run fresh sched n = some ((List.range n).map fresh, reaped, out) ∧
      ((List.range n).map fresh).length = n ∧
      reaped.length = n ∧
      (∀ p, p ∈ reaped ↔ p ∈ (List.range n).map fresh) ∧
      task1_run fresh sched 0 = some ([], [], [task1Header 0, task1DoneMsg]) := by
  obtain ⟨r, hr, hperm⟩ :=
    reapFor_length n ((List.range n).map fresh) sched (by simp)
  refine ⟨r, task1Header n :: ((List.range n).map fresh).map task1SpawnMsg ++
    r.map task1WaitMsg ++ [task1DoneMsg], ?_, by simp, ?_, ?_, ?_⟩
  · simp only [task1_run, hr]
  · rw [hperm.length_eq]; simp
  · exact fun p => hperm.mem_iff
  · rfl

/-- Claim C8: task 2's command-line parsing (`shlex.split`) respects
shell-style quoting and whitespace rules: a command built from
whitespace-separated segments is split into exactly one token per segment
(leading whitespace ignored), quoted segments — which may contain whitespace —
are preserved as single tokens, and in particular "ls -l" splits into
["ls", "-l"]. -/
theorem shlex_split_shellstyle (pre : List Char) (ts : List ShTok)
    (hpre : ∀ c ∈ pre, isWS c = true) (hok : ∀ t ∈ ts, t.okb = true) :
    shlexSplit (String.mk (pre ++ renderCmd ts)) =
      some (ts.map fun t => String.mk t.content) ∧
    shlexSplit (String.mk (renderCmd ts)) =
      some (ts.map fun t => String.mk t.content) ∧
    shlexSplit "ls -l" = some ["ls", "-l"] := by
  refine ⟨?_, ?_, by decide⟩
  · show lexRun (pre ++ renderCmd ts) .ws [] false = _
    rw [lexRun_ws_skip pre _ hpre, renderCmd_lex ts hok]
  · show lexRun (renderCmd ts) .ws [] false = _
    rw [renderCmd_lex ts hok]

theorem shlex_split_shellstyle_witness :
    shlexSplit (String.mk ([' '] ++
        renderCmd [ShTok.plain ['l', 's'], ShTok.plain ['-', 'l'],
          ShTok.squoted ['a', ' ', 'b']])) =
      some [String.mk ['l', 's'], String.mk ['-', 'l'], String.mk ['a', ' ', 'b']] := by
  have h := (shlex_split_shellstyle [' ']
    [ShTok.plain ['l', 's'], ShTok.plain ['-', 'l'], ShTok.squoted ['a', ' ', 'b']]
    (by decide) (by decide)).1
  simpa using h

/-- Claim C2: task 5 spawns `min(N, 5)` children, assigning each a distinct
nice hint taken in order from the ascending list [0, 5, 10, 15, 19]; for N = 3
exactly 3 children get hints 0, 5, 10 in that order, and the recorded finish
order is a permutation of the spawned PIDs with no PID appearing twice
(given that the OS-assigned PIDs are distinct). -/
theorem task5_priority_hints_perm (fresh : Nat → Nat) (sched : List Nat)
    (n iterations : Nat)
    (hnodup : (task5_run fresh sched n iterations).children.Nodup) :
    (task5_run fresh sched n iterations).children.length = min n 5 ∧
    (task5_run fresh sched n iterations).assignments.map Prod.snd =
      niceBase.take n ∧
    (niceBase.take n).Nodup ∧
    ((task5_run fresh sched 3 iterations).assignments.map Prod.snd =
        [0, 5, 10] ∧
      (task5_run fresh sched 3 iterations).children.length = 3) ∧
    (task5_run fresh sched n iterations).order.Perm
      (task5_run fresh sched n iterations).children ∧
    (task5_run fresh sched n iterations).order.Nodup := by
  have hzip : ∀ m, ((((List.range (niceBase.take m).length).map fresh).zip
      (niceBase.take m)).map Prod.snd) = niceBase.take m := by
    intro m
    apply List.map_snd_zip
    simp
  refine ⟨by simp [task5_run, niceBase], hzip n,
    ((by decide : niceBase.Nodup).sublist (List.take_sublist n niceBase)),
    ⟨by simpa using hzip 3, by simp [task5_run, niceBase]⟩,
    reapAll_perm _ _, ?_⟩
  exact ((reapAll_perm sched _).symm).nodup hnodup

theorem task5_priority_hints_perm_witness :
    (task5_run id [] 3 0).children.length = min 3 5 ∧
    (task5_run id [] 3 0).order.Nodup :=
  ⟨(task5_priority_hints_perm id [] 3 0 (by decide)).1,
   (task5_priority_hints_perm id [] 3 0 (by decide)).2.2.2.2.2⟩

/-- Claim C3: in task 2, when the named program cannot be located, the child
prints a diagnostic naming the missing program and terminates via
`os._exit(1)` — a non-zero status — rather than propagating the exception; the
parent's reap loop is unaffected and still reaps exactly N children (a
permutation of the spawned PIDs). -/
theorem task2_exec_notfound (fresh : Nat → Nat) (sched : List Nat)
    (locate : String → Bool) (n : Nat) (cmd : String) (i : Nat)
    (a0 : String) (rest : List String)
    (hsplit : shlexSplit cmd = some (a0 :: rest))
    (hmiss : locate a0 = false) :
    task2_child locate i (a0 :: rest) =
      Task2ChildOutcome.exitFail 1 (execFailMsg i a0) ∧
    (1 : Nat) ≠ 0 ∧
    (∃ pre post, execFailMsg i a0 = pre ++ a0 ++ post) ∧
    ∃ reaped out,
      task2_run fresh sched n cmd =
        some ((List.range n).map fresh, reaped, out) ∧
      reaped.length = n ∧ reaped.Perm ((List.range n).map fresh) := by
  refine ⟨by simp [task2_child, hmiss], by decide,
    ⟨"[Child " ++ toString (i + 1) ++ "] exec failed: ", " not found", rfl⟩, ?_⟩
  refine ⟨reapAll sched ((List.range n).map fresh),
    task2Header (a0 :: rest) :: ((List.range n).map fresh).map task2SpawnMsg ++
      (reapAll sched ((List.range n).map fresh)).map task2WaitedMsg ++
      [task2DoneMsg], ?_, ?_, reapAll_perm _ _⟩
  · simp [task2_run, hsplit]
  · rw [(reapAll_perm _ _).length_eq]; simp

theorem task2_exec_notfound_witness :
    task2_child (fun _ => false) 0 ["nosuch"] =
      Task2ChildOutcome.exitFail 1 (execFailMsg 0 "nosuch") ∧
    ∃ reaped out,
      task2_run id [] 2 "nosuch" = some ((List.range 2).map id, reaped, out) ∧
      reaped.length = 2 ∧ reaped.Perm ((List.range 2).map id) :=
  ⟨(task2_exec_notfound id [] (fun _ => false) 2 "nosuch" 0 "nosuch" []
      (by decide) rfl).1,
   (task2_exec_notfound id [] (fun _ => false) 2 "nosuch" 0 "nosuch" []
      (by decide) rfl).2.2.2⟩

/-- Claim C9 (implicit): the CPU-bound busy work of a task 5 child
(`s += (k & 1)` over `range(iterations)`) computes exactly
`iterations / 2` (floor), so the printed result is fully determined by the
iteration count — in particular 1000000 for the default 2000000 iterations —
and is independent of the child's nice value. -/
theorem task5_busywork_half (niceval iterations : Nat) :
    task5_childResult niceval iterations = iterations / 2 ∧
    (∀ niceval', task5_childResult niceval iterations =
      task5_childResult niceval' iterations) ∧
    task5_childResult niceval 2000000 = 1000000 := by
  refine ⟨busyWork_eq iterations, fun _ => rfl, ?_⟩
  show busyWork 2000000 = 1000000
  rw [busyWork_eq]

/-- Claim C5: for every PID whose /proc directory does not exist, the task 4
inspector reports this and returns without error — its output is exactly the
header plus the not-found diagnostic, no sub-read is attempted — and invoking
it twice on the same nonexistent PID yields the same not-found outcome both
times (the inspector performs no writes, so the second call observes the same
filesystem). -/
theorem task4_missing_pid_idempotent (fs : ProcFS) (pid : Int)
    (h : fs.existsDir pid = false) :
    task4_inspect fs pid = [inspectHeader pid, procNotFoundMsg pid] ∧
    task4_inspectTwice fs pid =
      ([inspectHeader pid, procNotFoundMsg pid],
       [inspectHeader pid, procNotFoundMsg pid]) ∧
    (task4_inspectTwice fs pid).1 = (task4_inspectTwice fs pid).2 := by
  have h1 : task4_inspect fs pid = [inspectHeader pid, procNotFoundMsg pid] := by
    simp [task4_inspect, h]
  exact ⟨h1, by simp [task4_inspectTwice, h1], rfl⟩

theorem task4_missing_pid_idempotent_witness :
    task4_inspectTwice
        (ProcFS.mk (fun _ => false) (fun _ => Except.ok [])
          (fun _ => Except.ok "") (fun _ => Except.ok [])) 12345 =
      ([inspectHeader 12345, procNotFoundMsg 12345],
       [inspectHeader 12345, procNotFoundMsg 12345]) :=
  (task4_missing_pid_idempotent _ 12345 rfl).2.1

/-- Claim C6: the task 4 inspector's three sub-reads (status summary,
executable link, descriptor enumeration) fail independently: the output
decomposes as header plus the three sections, each a function of its own read
only, so for every combination of failing sub-reads each failure is reported
per-field (including per-descriptor entries) and does not prevent the other
sub-reads from being attempted or abort the inspection. -/
theorem task4_subreads_independent (fs : ProcFS) (pid : Int)
    (h : fs.existsDir pid = true) :
    task4_inspect fs pid =
      inspectHeader pid ::
        (statusSection (fs.statusLines pid) ++ exeSection (fs.exeLink pid) ++
          fdSection (fs.fdList pid)) ∧
    (∀ e, statusSection (Except.error e) =
      [statusHeaderLine, "Error reading status: " ++ e]) ∧
    (∀ e, exeSection (Except.error e) = ["\n-- exe not readable: " ++ e]) ∧
    (∀ e, fdSection (Except.error e) = ["\n-- fd not accessible: " ++ e]) ∧
    (∀ fds, fdSection (Except.ok fds) =
      ("\n-- " ++ toString fds.length ++ " open file descriptors:") ::
        fds.map fdLine) ∧
    (∀ nm e, fdLine (nm, Except.error e) = nm ++ " -> (unreadable) " ++ e) ∧
    (∀ nm t, fdLine (nm, Except.ok t) = nm ++ " -> " ++ t) := by
  refine ⟨?_, fun e => rfl, fun e => rfl, fun e => rfl, fun fds => rfl,
    fun nm e => rfl, fun nm t => rfl⟩
  simp [task4_inspect, h, statusSection, exeSection, fdSection]

theorem task4_subreads_independent_witness :
    task4_inspect
        (ProcFS.mk (fun _ => true) (fun _ => Except.error "E1")
          (fun _ => Except.error "E2") (fun _ => Except.error "E3")) 7 =
      inspectHeader 7 ::
        (statusSection (Except.error "E1") ++ exeSection (Except.error "E2") ++
          fdSection (Except.error "E3")) :=
  (task4_subreads_independent _ 7 rfl).1

/-- Claim C7: in the reap loops of tasks 1, 2 and 5, the "no more children to
reap" condition is the loop's terminal condition and is treated as successful
completion, not failure: task 1's loop performs exactly N waits leaving no
unreaped child, tasks 2 and 5's loops end exactly when the child table is
empty (the caught `ChildProcessError`), and each task then proceeds to print
its completion message as the last line of its output. -/
theorem getLast?_ends {α : Type} (x : α) (a b : List α) (d : α) :
    (x :: (a ++ b ++ [d])).getLast? = some d := by
  rw [show x :: (a ++ b ++ [d]) = (x :: (a ++ b)) ++ [d] by simp]
  exact List.getLast?_concat _

theorem reap_loop_terminal_success (fresh : Nat → Nat) (sched : List Nat)
    (n iterations : Nat) (cmd : String) (argv : List String)
    (hsplit : shlexSplit cmd = some argv) :
    (∃ reaped out,
      reapFor sched n ((List.range n).map fresh) = some (reaped, []) ∧
      task1_run fresh sched n = some ((List.range n).map fresh, reaped, out) ∧
      out.getLast? = some task1DoneMsg) ∧
    (∃ reaped out,
      task2_run fresh sched n cmd =
        some ((List.range n).map fresh, reaped, out) ∧
      reaped.Perm ((List.range n).map fresh) ∧
      out.getLast? = some task2DoneMsg) ∧
    ((task5_run fresh sched n iterations).order.Perm
        (task5_run fresh sched n iterations).children ∧
      (task5_run fresh sched n iterations).output.getLast? =
        some (task5OrderMsg (task5_run fresh sched n iterations).order)) := by
  obtain ⟨r, hr, hperm⟩ :=
    reapFor_length n ((List.range n).map fresh) sched (by simp)
  refine ⟨⟨r, task1Header n :: ((List.range n).map fresh).map task1SpawnMsg ++
      r.map task1WaitMsg ++ [task1DoneMsg], hr, ?_, ?_⟩, ?_, ?_, ?_⟩
  · simp only [task1_run, hr]
  · simp only [List.map_map]
    exact getLast?_ends _ _ _ _
  · refine ⟨reapAll sched ((List.range n).map fresh),
      task2Header argv :: ((List.range n).map fresh).map task2SpawnMsg ++
        (reapAll sched ((List.range n).map fresh)).map task2WaitedMsg ++
        [task2DoneMsg], ?_, reapAll_perm _ _, ?_⟩
    · simp [task2_run, hsplit]
    · simp only [List.map_map]
      exact getLast?_ends _ _ _ _
  · exact reapAll_perm _ _
  · simp only [task5_run]
    exact getLast?_ends _ _ _ _

theorem reap_loop_terminal_success_witness :
    (task5_run id [] 1 0).order.Perm (task5_run id [] 1 0).children ∧
    (task5_run id [] 1 0).output.getLast? =
      some (task5OrderMsg (task5_run id [] 1 0).order) :=
  (reap_loop_terminal_success id [] 1 0 "ls -l" ["ls", "-l"] (by decide)).2.2

/-- Claim C4: the program exits 0 on normal completion of the selected task,
and exits 1 in exactly the two startup-failure cases — non-Linux host, or
task 4 selected without a (truthy) `--pid` — printing a diagnostic in both.
(`pidTruthy pid = false` is the code's own presence check `if not args.pid:`;
for `pid = some 0` see the companion claim about falsy PID 0.)  The task 2
side condition restricts to runs whose command string lexes, i.e. to normal
completion of the selected task. -/
theorem main_exit_codes (env : Env) (args : Args)
    (htask : args.task = "1" ∨ args.task = "2" ∨ args.task = "3z" ∨
      args.task = "3o" ∨ args.task = "4" ∨ args.task = "5")
    (hcmd : args.task = "2" → (shlexSplit args.cmd).isSome) :
    ((mainRun env args).1 = 0 ∨ (mainRun env args).1 = 1) ∧
    ((mainRun env args).1 = 1 ↔
      (env.isLinux = false ∨ (args.task = "4" ∧ pidTruthy args.pid = false))) ∧
    (env.isLinux = false → (mainRun env args).2 = [linuxWarnMsg]) ∧
    (env.isLinux = true → args.task = "4" → pidTruthy args.pid = false →
      (mainRun env args).2 = [pidUsageMsg]) := by
  cases hl : env.isLinux with
  | false =>
    refine ⟨Or.inr ?_, ?_, fun _ => ?_, fun h => absurd h (by decide)⟩
    · simp [mainRun, hl]
    · simp [mainRun, hl]
    · simp [mainRun, hl]
  | true =>
    rcases htask with h | h | h | h | h | h
    · obtain ⟨r, hr, _⟩ :=
        reapFor_length args.n ((List.range args.n).map env.fresh) env.sched (by simp)
      have hsome : task1_run env.fresh env.sched args.n =
          some ((List.range args.n).map env.fresh, r,
            task1Header args.n ::
              ((List.range args.n).map env.fresh).map task1SpawnMsg ++
              r.map task1WaitMsg ++ [task1DoneMsg]) := by
        simp only [task1_run, hr]
      refine ⟨Or.inl ?_, ?_, fun hf => absurd hf (by decide),
        fun _ h4 => absurd (h.symm.trans h4) (by decide)⟩ <;>
        simp [mainRun, hl, h, hsome]
    · have hsome := Option.isSome_iff_exists.mp (hcmd h)
      obtain ⟨argv, hargv⟩ := hsome
      have h2 : task2_run env.fresh env.sched args.n args.cmd =
          some ((List.range args.n).map env.fresh,
            reapAll env.sched ((List.range args.n).map env.fresh),
            task2Header argv ::
              ((List.range args.n).map env.fresh).map task2SpawnMsg ++
              (reapAll env.sched ((List.range args.n).map env.fresh)).map
                task2WaitedMsg ++ [task2DoneMsg]) := by
        simp [task2_run, hargv]
      refine ⟨Or.inl ?_, ?_, fun hf => absurd hf (by decide),
        fun _ h4 => absurd (h.symm.trans h4) (by decide)⟩ <;>
        simp [mainRun, hl, h, h2]
    · refine ⟨Or.inl ?_, ?_, fun hf => absurd hf (by decide),
        fun _ h4 => absurd (h.symm.trans h4) (by decide)⟩ <;>
        simp [mainRun, hl, h]
    · refine ⟨Or.inl ?_, ?_, fun hf => absurd hf (by decide),
        fun _ h4 => absurd (h.symm.trans h4) (by decide)⟩ <;>
        simp [mainRun, hl, h]
    · cases hp : pidTruthy args.pid with
      | false =>
        refine ⟨Or.inr ?_, ?_, fun hf => absurd hf (by decide),
          fun _ _ _ => ?_⟩ <;> simp [mainRun, hl, h, hp]
      | true =>
        refine ⟨Or.inl ?_, ?_, fun hf => absurd hf (by decide),
          fun _ _ hf => absurd hf (by decide)⟩ <;>
          simp [mainRun, hl, h, hp]
    · refine ⟨Or.inl ?_, ?_, fun hf => absurd hf (by decide),
        fun _ h4 => absurd (h.symm.trans h4) (by decide)⟩ <;>
        simp [mainRun, hl, h]

theorem main_exit_codes_witness :
    (mainRun
        (Env.mk true id []
          (ProcFS.mk (fun _ => false) (fun _ => Except.error "")
            (fun _ => Except.error "") (fun _ => Except.error "")) [])
        (Args.mk "4" 3 "ls -l" none 2000000)).1 = 1 ∧
    (mainRun
        (Env.mk true id []
          (ProcFS.mk (fun _ => false) (fun _ => Except.error "")
            (fun _ => Except.error "") (fun _ => Except.error "")) [])
        (Args.mk "4" 3 "ls -l" none 2000000)).2 = [pidUsageMsg] := by
  have h := main_exit_codes
    (Env.mk true id []
      (ProcFS.mk (fun _ => false) (fun _ => Except.error "")
        (fun _ => Except.error "") (fun _ => Except.error "")) [])
    (Args.mk "4" 3 "ls -l" none 2000000)
    (Or.inr (Or.inr (Or.inr (Or.inr (Or.inl rfl)))))
    (fun hf => absurd hf (by decide))
  exact ⟨h.2.1.mpr (Or.inr ⟨rfl, rfl⟩), h.2.2.2 rfl rfl rfl⟩

/-- Claim C10 (implicit): selecting task 4 with `--pid 0` explicitly supplied
is treated the same as omitting `--pid`, because `if not args.pid:` tests
Python truthiness and 0 is falsy: the program prints the usage diagnostic and
exits with status 1 instead of inspecting PID 0. -/
theorem main_pid_zero_falsy (env : Env) (args : Args)
    (hl : env.isLinux = true) (ht : args.task = "4") (hp : args.pid = some 0) :
    mainRun env args = (1, [pidUsageMsg]) ∧
    mainRun env args =
      mainRun env (Args.mk args.task args.n args.cmd none args.iterations) := by
  have h0 : pidTruthy args.pid = false := by rw [hp]; rfl
  have h1 : pidTruthy (none : Option Int) = false := rfl
  constructor
  · simp [mainRun, hl, ht, h0]
  · simp [mainRun, hl, ht, h0, h1]

theorem main_pid_zero_falsy_witness :
    mainRun
        (Env.mk true id []
          (ProcFS.mk (fun _ => false) (fun _ => Except.error "")
            (fun _ => Except.error "") (fun _ => Except.error "")) [])
        (Args.mk "4" 3 "ls -l" (some 0) 2000000) = (1, [pidUsageMsg]) :=
  (main_pid_zero_falsy
    (Env.mk true id []
      (ProcFS.mk (fun _ => false) (fun _ => Except.error "")
        (fun _ => Except.error "") (fun _ => Except.error "")) [])
    (Args.mk "4" 3 "ls -l" (some 0) 2000000) rfl rfl rfl).1

end ProcessManagement
